import Mathlib

/-!
Shallow embedding of the meteoir-agent ICP canister core
(src/packages/icp-canister/src): types.rs, payment_processor.rs,
service_registry.rs, cost_optimizer.rs.

Modelling conventions:
- Rust `HashMap<String, V>` becomes an association list `List (String × V)`
  with lookup on the first matching key, insert-replacing the first matching
  entry, and remove filtering out the key.  All claims proved here are
  insensitive to the unspecified iteration order of the Rust map.
- Rust `u64` becomes `Nat` (the operations used never underflow on the
  reachable states considered; where a subtraction occurs the relevant
  hypotheses keep it within range).
- Rust `f64` becomes `ℚ` (exact arithmetic) wherever the source arithmetic
  stays finite.  The two places where the source can produce non-finite
  values are modelled explicitly: the cost-efficiency division of
  `get_usage_metrics` uses `divF` (`none` = non-finite result of a zero
  divisor), and `calculate_potential_savings` is computed in the `F64`
  domain (finite rational, positive or negative infinity, or NaN), because
  its `1.0 / average_cost` hits a zero divisor on reachable states and the
  resulting infinities and NaNs propagate through `f64::max` and the final
  product.
- `ic_cdk::api::time()` becomes an explicit `Nat` parameter threaded into
  each operation that reads the clock.
- The simulated blockchain backend of `execute_blockchain_transaction`
  is an injected parameter `exec : PaymentRequest → Bool`, as the spec
  describes the execution backend as an injected dependency.
-/

/-- types.rs: ServiceProvider. -/
structure ServiceProvider where
  id : String
  name : String
  api_endpoint : String
  supported_chains : List String
  cost_per_request : Nat
  reliability_score : ℚ
  last_ping : Nat
  is_active : Bool
deriving DecidableEq, Repr

/-- types.rs: PaymentStatus. -/
inductive PaymentStatus where
  | Pending
  | Processing
  | Completed
  | Failed
  | Cancelled
deriving DecidableEq, Repr

/-- types.rs: PaymentRequest. -/
structure PaymentRequest where
  id : String
  provider_id : String
  chain : String
  amount : Nat
  recipient : String
  metadata : String
  timestamp : Nat
  status : PaymentStatus
deriving DecidableEq, Repr

/-- types.rs: OptimizationSettings. -/
structure OptimizationSettings where
  max_cost_per_transaction : Nat
  preferred_chains : List String
  reliability_threshold : ℚ
  auto_optimization_enabled : Bool
  rebalance_frequency : Nat
deriving DecidableEq, Repr

/-- Association-list model of HashMap lookup (get). -/
def alookup {α : Type} (m : List (String × α)) (k : String) : Option α :=
  match m with
  | [] => none
  | (k1, v) :: rest => if k1 = k then some v else alookup rest k

/-- Association-list model of HashMap insert: replace the first entry with
this key, or append a fresh entry. -/
def ainsert {α : Type} (m : List (String × α)) (k : String) (v : α) :
    List (String × α) :=
  match m with
  | [] => [(k, v)]
  | (k1, v1) :: rest =>
    if k1 = k then (k, v) :: rest else (k1, v1) :: ainsert rest k v

/-- Association-list model of HashMap remove: drop every entry with this key. -/
def aerase {α : Type} (m : List (String × α)) (k : String) :
    List (String × α) :=
  match m with
  | [] => []
  | (k1, v1) :: rest =>
    if k1 = k then aerase rest k else (k1, v1) :: aerase rest k

/-- payment_processor.rs: PaymentProcessor state. -/
structure PaymentProcessor where
  pending_payments : List (String × PaymentRequest)
  completed_payments : List (String × PaymentRequest)
  retry_counts : List (String × Nat)
deriving DecidableEq, Repr

/-- payment_processor.rs: PaymentProcessor::new. -/
def PaymentProcessor.new : PaymentProcessor := ⟨[], [], []⟩

/-- payment_processor.rs: submit_payment.  `t` models `ic_cdk::api::time()`. -/
def submit_payment (st : PaymentProcessor) (payment : PaymentRequest)
    (t : Nat) : Except String String × PaymentProcessor :=
  if (alookup st.pending_payments payment.id).isSome ||
     (alookup st.completed_payments payment.id).isSome then
    (.error "Payment ID already exists", st)
  else
    let payment1 := { payment with timestamp := t, status := .Pending }
    (.ok payment.id,
      { st with
        pending_payments := ainsert st.pending_payments payment.id payment1,
        retry_counts := ainsert st.retry_counts payment.id 0 })

/-- payment_processor.rs: handle_payment_failure. -/
def handle_payment_failure (st : PaymentProcessor) (payment_id : String) :
    Except String Unit × PaymentProcessor :=
  let retry_count := (alookup st.retry_counts payment_id).getD 0
  if retry_count < 3 then
    let st1 := { st with
      retry_counts := ainsert st.retry_counts payment_id (retry_count + 1) }
    match alookup st1.pending_payments payment_id with
    | some payment =>
      (.ok (), { st1 with
        pending_payments := ainsert st1.pending_payments payment_id
          { payment with status := .Pending } })
    | none => (.ok (), st1)
  else
    match alookup st.pending_payments payment_id with
    | some payment =>
      let failed_payment := { payment with status := .Failed }
      (.error "Payment failed after maximum retries",
        { st with
          pending_payments := aerase st.pending_payments payment_id,
          completed_payments :=
            ainsert st.completed_payments payment_id failed_payment,
          retry_counts := aerase st.retry_counts payment_id })
    | none => (.error "Payment failed after maximum retries", st)

/-- payment_processor.rs: process_payment, with the execution backend
injected as `exec` (the source calls its simulated
execute_blockchain_transaction there). -/
def process_payment (exec : PaymentRequest → Bool) (st : PaymentProcessor)
    (payment_id : String) : Except String Unit × PaymentProcessor :=
  match alookup st.pending_payments payment_id with
  | none => (.error "Payment not found", st)
  | some payment0 =>
    let payment_clone := { payment0 with status := PaymentStatus.Processing }
    let st1 := { st with
      pending_payments := ainsert st.pending_payments payment_id payment_clone }
    if exec payment_clone then
      let completed := { payment_clone with status := PaymentStatus.Completed }
      (.ok (), { st1 with
        pending_payments := aerase st1.pending_payments payment_id,
        completed_payments :=
          ainsert st1.completed_payments payment_id completed,
        retry_counts := aerase st1.retry_counts payment_id })
    else
      handle_payment_failure st1 payment_id

/-- payment_processor.rs: get_payment_status. -/
def get_payment_status (st : PaymentProcessor) (payment_id : String) :
    Option PaymentStatus :=
  match alookup st.pending_payments payment_id with
  | some payment => some payment.status
  | none =>
    match alookup st.completed_payments payment_id with
    | some payment => some payment.status
    | none => none

/-- payment_processor.rs: cancel_payment. -/
def cancel_payment (st : PaymentProcessor) (payment_id : String) :
    Except String Unit × PaymentProcessor :=
  match alookup st.pending_payments payment_id with
  | some payment =>
    if payment.status = PaymentStatus.Processing then
      (.error "Cannot cancel payment that is already processing", st)
    else
      let cancelled_payment := { payment with status := PaymentStatus.Cancelled }
      (.ok (), { st with
        pending_payments := aerase st.pending_payments payment_id,
        completed_payments :=
          ainsert st.completed_payments payment_id cancelled_payment,
        retry_counts := aerase st.retry_counts payment_id })
  | none => (.error "Payment not found", st)

/-- One serialized entry-point invocation of the processor, with the
execution backend of a process call injected per invocation. -/
inductive POp where
  | submit (payment : PaymentRequest) (t : Nat)
  | process (payment_id : String) (exec : PaymentRequest → Bool)
  | cancel (payment_id : String)

/-- Apply one processor operation (result discarded, state kept). -/
def applyPOp (st : PaymentProcessor) : POp → PaymentProcessor
  | .submit p t => (submit_payment st p t).2
  | .process id exec => (process_payment exec st id).2
  | .cancel id => (cancel_payment st id).2

/-- Reachable processor states: fold a list of operations from the fresh
processor. -/
def runPOps (ops : List POp) : PaymentProcessor :=
  ops.foldl applyPOp PaymentProcessor.new

/-- service_registry.rs: ServiceRegistry state. -/
structure ServiceRegistry where
  providers : List (String × ServiceProvider)
  performance_history : List (String × List ℚ)
deriving DecidableEq, Repr

/-- service_registry.rs: ServiceRegistry::new. -/
def ServiceRegistry.new : ServiceRegistry := ⟨[], []⟩

/-- service_registry.rs: register_provider. -/
def register_provider (reg : ServiceRegistry) (provider : ServiceProvider) :
    Except String Unit × ServiceRegistry :=
  if (alookup reg.providers provider.id).isSome then
    (.error "Provider already registered", reg)
  else
    (.ok (),
      { providers := ainsert reg.providers provider.id provider,
        performance_history :=
          ainsert reg.performance_history provider.id [] })

/-- service_registry.rs: update_provider_performance.  The source returns
unit and silently does nothing when the id has no history entry. -/
def update_provider_performance (reg : ServiceRegistry)
    (provider_id : String) (response_time : ℚ) : ServiceRegistry :=
  match alookup reg.performance_history provider_id with
  | some history =>
    let h1 := history ++ [response_time]
    let h2 := if h1.length > 100 then h1.tail else h1
    { reg with
      performance_history := ainsert reg.performance_history provider_id h2 }
  | none => reg

/-- service_registry.rs: calculate_provider_score. -/
def calculate_provider_score (reg : ServiceRegistry)
    (provider : ServiceProvider) : ℚ :=
  let cost_score : ℚ := 1 / ((provider.cost_per_request : ℚ) + 1)
  let reliability_score := provider.reliability_score
  let performance_score : ℚ :=
    match alookup reg.performance_history provider.id with
    | some history =>
      if history.isEmpty then 1/2
      else
        let avg_response_time := history.sum / (history.length : ℚ)
        1 / (avg_response_time + 1)
    | none => 1/2
  cost_score * (3/10) + reliability_score * (4/10) + performance_score * (3/10)

/-- One fold step of Rust Iterator::min_by: replace the accumulator only
when the new element scores strictly lower (keeps the earlier element on
ties). -/
def min_step (score : ServiceProvider → ℚ) (acc : Option ServiceProvider)
    (x : ServiceProvider) : Option ServiceProvider :=
  match acc with
  | none => some x
  | some a => if score x < score a then some x else some a

/-- Rust Iterator::min_by over a list. -/
def min_by_score (score : ServiceProvider → ℚ) (l : List ServiceProvider) :
    Option ServiceProvider :=
  l.foldl (min_step score) none

/-- service_registry.rs: the candidate filter of get_best_provider. -/
def best_provider_candidates (reg : ServiceRegistry) (chain : String)
    (max_cost : Nat) : List ServiceProvider :=
  (reg.providers.map (fun kv => kv.2)).filter
    (fun p =>
      p.is_active && p.supported_chains.contains chain &&
      decide (p.cost_per_request ≤ max_cost) &&
      decide ((8 : ℚ)/10 ≤ p.reliability_score))

/-- service_registry.rs: get_best_provider. -/
def get_best_provider (reg : ServiceRegistry) (chain : String)
    (max_cost : Nat) : Option ServiceProvider :=
  min_by_score (calculate_provider_score reg)
    (best_provider_candidates reg chain max_cost)

/-- service_registry.rs: deactivate_provider. -/
def deactivate_provider (reg : ServiceRegistry) (provider_id : String) :
    Except String Unit × ServiceRegistry :=
  match alookup reg.providers provider_id with
  | some provider =>
    (.ok (), { reg with
      providers := ainsert reg.providers provider_id
        { provider with is_active := false } })
  | none => (.error "Provider not found", reg)

/-- One serialized registry mutation. -/
inductive RegOp where
  | register (provider : ServiceProvider)
  | recordPerf (provider_id : String) (response_time : ℚ)
  | deactivate (provider_id : String)

/-- Apply one registry operation. -/
def applyRegOp (reg : ServiceRegistry) : RegOp → ServiceRegistry
  | .register p => (register_provider reg p).2
  | .recordPerf id rt => update_provider_performance reg id rt
  | .deactivate id => (deactivate_provider reg id).2

/-- Reachable registry states. -/
def runRegOps (ops : List RegOp) : ServiceRegistry :=
  ops.foldl applyRegOp ServiceRegistry.new

/-- cost_optimizer.rs: UsageRecord. -/
structure UsageRecord where
  timestamp : Nat
  chain : String
  provider_id : String
  cost : Nat
  success : Bool
  response_time : ℚ
deriving DecidableEq, Repr

/-- cost_optimizer.rs: ChainCostData. -/
structure ChainCostData where
  average_cost : ℚ
  volume : Nat
  success_rate : ℚ
  last_updated : Nat
deriving DecidableEq, Repr

/-- Model of the f64 values reachable in calculate_potential_savings: a
finite rational, positive or negative infinity, or NaN. -/
inductive F64 where
  | fin (q : ℚ)
  | inf
  | ninf
  | nan
deriving DecidableEq, Repr

/-- f64 reciprocal 1.0/x of a finite x (a rational zero stands for +0.0,
whose reciprocal is positive infinity). -/
def recipF (q : ℚ) : F64 :=
  if q = 0 then .inf else .fin (1 / q)

/-- f64 product of a finite value with an F64 value: zero times an
infinity is NaN, a nonzero finite value times an infinity keeps the
signed infinity, and anything times NaN is NaN. -/
def qmulF (a : ℚ) (x : F64) : F64 :=
  match x with
  | .fin b => .fin (a * b)
  | .inf => if a = 0 then .nan else if 0 < a then .inf else .ninf
  | .ninf => if a = 0 then .nan else if 0 < a then .ninf else .inf
  | .nan => .nan

/-- Rust f64::max: when one argument is NaN the other is returned, and
otherwise the larger value wins (infinities ordered as usual). -/
def maxF (x y : F64) : F64 :=
  match x, y with
  | .nan, y => y
  | x, .nan => x
  | .inf, _ => .inf
  | _, .inf => .inf
  | .ninf, y => y
  | x, .ninf => x
  | .fin a, .fin b => .fin (max a b)

/-- cost_optimizer.rs: RebalancingSuggestion (the savings field carries the
f64 model, since the source computation can produce non-finite values). -/
structure RebalancingSuggestion where
  from_chain : String
  to_chain : String
  reason : String
  potential_savings : F64
deriving DecidableEq, Repr

/-- cost_optimizer.rs: CostOptimizer state. -/
structure CostOptimizer where
  settings : OptimizationSettings
  usage_history : List UsageRecord
  chain_costs : List (String × ChainCostData)
deriving DecidableEq, Repr

/-- cost_optimizer.rs: CostOptimizer::new. -/
def CostOptimizer.new (settings : OptimizationSettings) : CostOptimizer :=
  ⟨settings, [], []⟩

/-- cost_optimizer.rs: update_chain_costs.  `current_time` models time(). -/
def update_chain_costs (opt : CostOptimizer) (chain : String) (cost : Nat)
    (success : Bool) (current_time : Nat) : CostOptimizer :=
  let chain_data := (alookup opt.chain_costs chain).getD
    { average_cost := (cost : ℚ), volume := 0,
      success_rate := if success then 1 else 0,
      last_updated := current_time }
  let volume := chain_data.volume + 1
  let average_cost :=
    ((chain_data.average_cost * ((volume - 1 : Nat) : ℚ)) + (cost : ℚ)) /
      (volume : ℚ)
  let success_value : ℚ := if success then 1 else 0
  let success_rate :=
    ((chain_data.success_rate * ((volume - 1 : Nat) : ℚ)) + success_value) /
      (volume : ℚ)
  { opt with
    chain_costs := ainsert opt.chain_costs chain
      { average_cost := average_cost, volume := volume,
        success_rate := success_rate, last_updated := current_time } }

/-- cost_optimizer.rs: record_usage.  `t` models time(). -/
def record_usage (opt : CostOptimizer) (chain provider_id : String)
    (cost : Nat) (success : Bool) (response_time : ℚ) (t : Nat) :
    CostOptimizer :=
  let record : UsageRecord :=
    { timestamp := t, chain := chain, provider_id := provider_id,
      cost := cost, success := success, response_time := response_time }
  let opt1 := { opt with usage_history := opt.usage_history ++ [record] }
  let opt2 := update_chain_costs opt1 chain cost success t
  if opt2.usage_history.length > 1000 then
    { opt2 with usage_history := opt2.usage_history.tail }
  else opt2

/-- Division as performed on f64: `none` models the non-finite result
produced by a zero divisor. -/
def divF (a b : ℚ) : Option ℚ := if b = 0 then none else some (a / b)

/-- Metrics record of types.rs, with the cost-efficiency field carrying the
f64-division model. -/
structure UsageMetrics where
  total_requests : Nat
  successful_payments : Nat
  failed_payments : Nat
  total_volume : Nat
  average_response_time : ℚ
  cost_efficiency : Option ℚ
deriving DecidableEq, Repr

/-- cost_optimizer.rs: get_usage_metrics.  `now` models time(). -/
def get_usage_metrics (opt : CostOptimizer) (now : Nat) (time_window : Nat) :
    UsageMetrics :=
  let recent_records := opt.usage_history.filter
    (fun r => decide (now - r.timestamp ≤ time_window))
  let total_requests := recent_records.length
  let successful_payments := (recent_records.filter (fun r => r.success)).length
  let failed_payments := total_requests - successful_payments
  let total_volume := (recent_records.map (fun r => r.cost)).sum
  let average_response_time : ℚ :=
    if !recent_records.isEmpty then
      (recent_records.map (fun r => r.response_time)).sum /
        (recent_records.length : ℚ)
    else 0
  let cost_efficiency :=
    if total_requests > 0 then
      (divF (successful_payments : ℚ) (total_volume : ℚ)).map
        (fun q => q * 1000000)
    else some 0
  { total_requests := total_requests,
    successful_payments := successful_payments,
    failed_payments := failed_payments,
    total_volume := total_volume,
    average_response_time := average_response_time,
    cost_efficiency := cost_efficiency }

/-- One fold step of Rust Iterator::max_by on (chain, data) pairs compared
by success_rate: replace the accumulator when the new element is at least
as large (keeps the later element on ties). -/
def max_step (acc : Option (String × ChainCostData))
    (x : String × ChainCostData) : Option (String × ChainCostData) :=
  match acc with
  | none => some x
  | some a =>
    if a.2.success_rate ≤ x.2.success_rate then some x else some a

/-- Rust Iterator::max_by over (chain, data) pairs comparing success_rate. -/
def max_by_success_rate (l : List (String × ChainCostData)) :
    Option (String × ChainCostData) :=
  l.foldl max_step none

/-- cost_optimizer.rs: find_alternative_chain. -/
def find_alternative_chain (opt : CostOptimizer)
    (problematic_chain : String) : String :=
  match max_by_success_rate
      (opt.chain_costs.filter (fun kv => kv.1 ≠ problematic_chain)) with
  | some kv => kv.1
  | none => "Polygon"

/-- cost_optimizer.rs: calculate_potential_savings, computed in the F64
domain: the stored stats are finite, but 1.0/average_cost is infinite when
the mean cost is zero, and the fold over f64::max (seed 0.0) and the final
product propagate infinities and NaN exactly as f64 does. -/
def calculate_potential_savings (opt : CostOptimizer) (chain : String) :
    F64 :=
  match alookup opt.chain_costs chain with
  | some chain_data =>
    let current_inefficiency :=
      (1 - chain_data.success_rate) * chain_data.average_cost
    let best_alternative_efficiency :=
      (opt.chain_costs.map
        (fun kv => qmulF kv.2.success_rate (recipF kv.2.average_cost))).foldl
          maxF (F64.fin 0)
    qmulF current_inefficiency best_alternative_efficiency
  | none => F64.fin 0

/-- cost_optimizer.rs: the body of the suggest_chain_rebalancing loop for
one preferred chain. -/
def suggestion_for (opt : CostOptimizer) (preferred_chain : String) :
    Option RebalancingSuggestion :=
  match alookup opt.chain_costs preferred_chain with
  | some chain_data =>
    if chain_data.success_rate < opt.settings.reliability_threshold then
      some
        { from_chain := preferred_chain,
          to_chain := find_alternative_chain opt preferred_chain,
          reason := "Low success rate",
          potential_savings := calculate_potential_savings opt preferred_chain }
    else none
  | none => none

/-- cost_optimizer.rs: suggest_chain_rebalancing. -/
def suggest_chain_rebalancing (opt : CostOptimizer) :
    List RebalancingSuggestion :=
  opt.settings.preferred_chains.filterMap (suggestion_for opt)

/-- A record_usage call with all of its arguments, for folding sequences of
usage events. -/
structure UEvent where
  chain : String
  provider_id : String
  cost : Nat
  success : Bool
  response_time : ℚ
  t : Nat
deriving DecidableEq, Repr

/-- Apply one usage event. -/
def applyUEvent (opt : CostOptimizer) (e : UEvent) : CostOptimizer :=
  record_usage opt e.chain e.provider_id e.cost e.success e.response_time e.t

/-- Fold a sequence of record_usage calls over an optimizer state. -/
def runUsage (opt : CostOptimizer) (evs : List UEvent) : CostOptimizer :=
  evs.foldl applyUEvent opt

/-- The UsageRecord that record_usage appends for an event. -/
def toRecord (e : UEvent) : UsageRecord :=
  { timestamp := e.t, chain := e.chain, provider_id := e.provider_id,
    cost := e.cost, success := e.success, response_time := e.response_time }

/-- The generic push-then-evict step shared by both ring buffers. -/
def pushCap {α : Type} (cap : Nat) (h : List α) (x : α) : List α :=
  let h1 := h ++ [x]
  if h1.length > cap then h1.tail else h1

/-- Every payment stored in the pending set has status Pending. -/
def pendingInv (st : PaymentProcessor) : Prop :=
  ∀ kv ∈ st.pending_payments, kv.2.status = PaymentStatus.Pending

/-- Every payment stored in the archive has a terminal status. -/
def archiveInv (st : PaymentProcessor) : Prop :=
  ∀ kv ∈ st.completed_payments,
    kv.2.status = PaymentStatus.Completed ∨
    kv.2.status = PaymentStatus.Failed ∨
    kv.2.status = PaymentStatus.Cancelled

/-- One process call under an always-failing execution backend (state part). -/
def failStep (st : PaymentProcessor) (id : String) : PaymentProcessor :=
  (process_payment (fun _ => false) st id).2

/-- The composite provider score written the way the spec states it:
0.3 times 1/(cost+1), plus 0.4 times reliability, plus 0.3 times
1/(meanResponseTime+1), with 0.5 as the performance term when the provider
has no recorded history. -/
def spec_composite_score (reg : ServiceRegistry) (p : ServiceProvider) : ℚ :=
  let performance_term : ℚ :=
    match alookup reg.performance_history p.id with
    | some history =>
      if history.isEmpty then 1/2
      else 1 / (history.sum / (history.length : ℚ) + 1)
    | none => 1/2
  3/10 * (1 / ((p.cost_per_request : ℚ) + 1)) +
    4/10 * p.reliability_score + 3/10 * performance_term

/-- A preferred chain qualifies for a rebalancing suggestion when it has
tracked stats and its success rate is below the threshold. -/
def chain_below_threshold (opt : CostOptimizer) (c : String) : Bool :=
  match alookup opt.chain_costs c with
  | some chain_data =>
    decide (chain_data.success_rate < opt.settings.reliability_threshold)
  | none => false

/-- The suggestion emitted for one qualifying preferred chain. -/
def mk_suggestion (opt : CostOptimizer) (c : String) : RebalancingSuggestion :=
  { from_chain := c,
    to_chain := find_alternative_chain opt c,
    reason := "Low success rate",
    potential_savings := calculate_potential_savings opt c }

/-- All tracked chain stats have success rate in [0,1] and nonnegative
mean cost (holds on reachable optimizer states). -/
def chainStatsInRange (opt : CostOptimizer) : Prop :=
  ∀ kv ∈ opt.chain_costs,
    0 ≤ kv.2.success_rate ∧ kv.2.success_rate ≤ 1 ∧ 0 ≤ kv.2.average_cost

/-- Concrete payment used by processor witnesses. -/
def prC1 : PaymentRequest :=
  { id := "pay1", provider_id := "prov", chain := "eth", amount := 5,
    recipient := "rcp", metadata := "", timestamp := 0,
    status := PaymentStatus.Pending }

/-- Concrete processor state holding prC1 as a pending payment. -/
def stC1 : PaymentProcessor := (submit_payment PaymentProcessor.new prC1 0).2

/-- Concrete payment used by the cancel witness. -/
def prC3 : PaymentRequest :=
  { id := "pay3", provider_id := "prov", chain := "eth", amount := 7,
    recipient := "rcp", metadata := "", timestamp := 0,
    status := PaymentStatus.Pending }

/-- Concrete processor state holding prC3 as a pending payment. -/
def stC3 : PaymentProcessor := (submit_payment PaymentProcessor.new prC3 0).2

/-- Concrete payment used by the C9 witness. -/
def prC9 : PaymentRequest :=
  { id := "pay9", provider_id := "prov", chain := "eth", amount := 9,
    recipient := "rcp", metadata := "", timestamp := 0,
    status := PaymentStatus.Pending }

/-- Operation list reaching the C9 witness state. -/
def opsC9 : List POp := [POp.submit prC9 0]

/-- types.rs: the Default impl for OptimizationSettings. -/
def OptimizationSettings.default : OptimizationSettings :=
  { max_cost_per_transaction := 1000000,
    preferred_chains := ["REI", "Polygon"],
    reliability_threshold := 95/100,
    auto_optimization_enabled := true,
    rebalance_frequency := 3600 }

/-- Concrete provider used by the registry selection witness. -/
def provA : ServiceProvider :=
  { id := "A", name := "ProvA", api_endpoint := "https://a",
    supported_chains := ["eth"], cost_per_request := 10,
    reliability_score := 99/100, last_ping := 0, is_active := true }

/-- Second concrete provider used by the registry selection witness. -/
def provB : ServiceProvider :=
  { id := "B", name := "ProvB", api_endpoint := "https://b",
    supported_chains := ["eth"], cost_per_request := 5,
    reliability_score := 81/100, last_ping := 0, is_active := true }

/-- Concrete registry with two active providers and empty histories. -/
def regC2 : ServiceRegistry :=
  { providers := [("A", provA), ("B", provB)],
    performance_history := [("A", []), ("B", [])] }

/-- Concrete provider used by the performance-recording witness. -/
def provC4 : ServiceProvider :=
  { id := "P4", name := "Prov4", api_endpoint := "https://p4",
    supported_chains := ["eth"], cost_per_request := 3,
    reliability_score := 9/10, last_ping := 0, is_active := true }

/-- Concrete registry with provC4 registered. -/
def regC4 : ServiceRegistry := (register_provider ServiceRegistry.new provC4).2

/-- Concrete optimizer state where the only tracked chain is the preferred
chain Polygon, with success rate 0 below the threshold. -/
def optC5 : CostOptimizer :=
  record_usage
    (CostOptimizer.new
      { OptimizationSettings.default with preferred_chains := ["Polygon"] })
    "Polygon" "prov" 10 false 5 0

/-- Concrete optimizer state with the default preferred chains and two
zero-cost usage records: a REI failure and a Polygon success.  Both chains
then have mean cost 0, so the savings computation divides by zero. -/
def optC5b : CostOptimizer :=
  record_usage
    (record_usage (CostOptimizer.new OptimizationSettings.default)
      "REI" "prov" 0 false 5 0)
    "Polygon" "prov" 0 true 5 1

/-- First concrete usage event of the streaming-mean witness. -/
def evC6a : UEvent :=
  { chain := "eth", provider_id := "p", cost := 4, success := true,
    response_time := 1, t := 0 }

/-- Second concrete usage event of the streaming-mean witness. -/
def evC6b : UEvent :=
  { chain := "eth", provider_id := "p", cost := 6, success := false,
    response_time := 1, t := 1 }

/-- Concrete optimizer state with one record inside and one outside the
metrics window. -/
def optC8 : CostOptimizer :=
  runUsage (CostOptimizer.new OptimizationSettings.default)
    [{ chain := "eth", provider_id := "p", cost := 3, success := true,
       response_time := 2, t := 5 },
     { chain := "eth", provider_id := "p", cost := 4, success := false,
       response_time := 6, t := 50 }]

/-- Concrete optimizer state holding a single successful zero-cost usage
record. -/
def optC10 : CostOptimizer :=
  record_usage (CostOptimizer.new OptimizationSettings.default)
    "eth" "p" 0 true 3 10

/-! ### Association-list lemmas -/

theorem alookup_ainsert_self {α : Type} (m : List (String × α)) (k : String)
    (v : α) : alookup (ainsert m k v) k = some v := by
  induction m with
  | nil => simp [ainsert, alookup]
  | cons kv rest ih =>
    obtain ⟨k1, v1⟩ := kv
    by_cases h : k1 = k
    · simp [ainsert, alookup, h]
    · simp [ainsert, alookup, h, ih]

theorem alookup_ainsert_ne {α : Type} (m : List (String × α)) (k k' : String)
    (v : α) (h : k' ≠ k) : alookup (ainsert m k v) k' = alookup m k' := by
  induction m with
  | nil => simp [ainsert, alookup, Ne.symm h]
  | cons kv rest ih =>
    obtain ⟨k1, v1⟩ := kv
    by_cases h1 : k1 = k
    · subst h1
      simp [ainsert, alookup, Ne.symm h]
    · simp [ainsert, alookup, h1, ih]

theorem alookup_aerase_self {α : Type} (m : List (String × α)) (k : String) :
    alookup (aerase m k) k = none := by
  induction m with
  | nil => simp [aerase, alookup]
  | cons kv rest ih =>
    obtain ⟨k1, v1⟩ := kv
    by_cases h : k1 = k
    · simp [aerase, h, ih]
    · simp [aerase, alookup, h, ih]

theorem alookup_aerase_ne {α : Type} (m : List (String × α)) (k k' : String)
    (h : k' ≠ k) : alookup (aerase m k) k' = alookup m k' := by
  induction m with
  | nil => simp [aerase, alookup]
  | cons kv rest ih =>
    obtain ⟨k1, v1⟩ := kv
    by_cases h1 : k1 = k
    · subst h1
      simp [aerase, alookup, Ne.symm h, ih]
    · simp [aerase, alookup, h1, ih]

theorem alookup_mem {α : Type} (m : List (String × α)) (k : String) (v : α)
    (h : alookup m k = some v) : (k, v) ∈ m := by
  induction m with
  | nil => simp [alookup] at h
  | cons kv rest ih =>
    obtain ⟨k1, v1⟩ := kv
    by_cases h1 : k1 = k
    · subst h1
      simp [alookup] at h
      subst h
      exact List.mem_cons_self _ _
    · simp [alookup, h1] at h
      exact List.mem_cons_of_mem _ (ih h)

theorem mem_ainsert {α : Type} (m : List (String × α)) (k : String) (v : α)
    (kv : String × α) (h : kv ∈ ainsert m k v) : kv = (k, v) ∨ kv ∈ m := by
  induction m with
  | nil => simpa [ainsert] using h
  | cons kv1 rest ih =>
    obtain ⟨k1, v1⟩ := kv1
    by_cases h1 : k1 = k
    · simp [ainsert, h1] at h
      rcases h with h | h
      · exact Or.inl h
      · exact Or.inr (List.mem_cons_of_mem _ h)
    · simp [ainsert, h1] at h
      rcases h with h | h
      · exact Or.inr (by simp [h])
      · rcases ih h with h2 | h2
        · exact Or.inl h2
        · exact Or.inr (List.mem_cons_of_mem _ h2)

theorem mem_aerase {α : Type} (m : List (String × α)) (k : String)
    (kv : String × α) (h : kv ∈ aerase m k) : kv ∈ m := by
  induction m with
  | nil => simp [aerase] at h
  | cons kv1 rest ih =>
    obtain ⟨k1, v1⟩ := kv1
    by_cases h1 : k1 = k
    · simp only [aerase, if_pos h1] at h
      exact List.mem_cons_of_mem _ (ih h)
    · simp only [aerase, if_neg h1, List.mem_cons] at h
      rcases h with h | h
      · simp [h]
      · exact List.mem_cons_of_mem _ (ih h)

theorem ainsert_ainsert {α : Type} (m : List (String × α)) (k : String)
    (v w : α) : ainsert (ainsert m k v) k w = ainsert m k w := by
  induction m with
  | nil => simp [ainsert]
  | cons kv rest ih =>
    obtain ⟨k1, v1⟩ := kv
    by_cases h : k1 = k
    · simp [ainsert, h]
    · simp [ainsert, h, ih]

theorem aerase_ainsert {α : Type} (m : List (String × α)) (k : String)
    (v : α) : aerase (ainsert m k v) k = aerase m k := by
  induction m with
  | nil => simp [ainsert, aerase]
  | cons kv rest ih =>
    obtain ⟨k1, v1⟩ := kv
    by_cases h : k1 = k
    · simp [ainsert, aerase, h]
    · simp [ainsert, aerase, h, ih]

/-! ### Payment processor invariants -/

theorem applyPOp_preserves (st : PaymentProcessor) (op : POp)
    (hp : pendingInv st) (ha : archiveInv st) :
    pendingInv (applyPOp st op) ∧ archiveInv (applyPOp st op) := by
  cases op with
  | submit p t =>
    simp only [applyPOp, submit_payment]
    split
    · exact ⟨hp, ha⟩
    · constructor
      · intro kv hkv
        rcases mem_ainsert _ _ _ _ hkv with h | h
        · subst h; rfl
        · exact hp kv h
      · exact ha
  | process id exec =>
    simp only [applyPOp, process_payment]
    cases hl : alookup st.pending_payments id with
    | none => exact ⟨hp, ha⟩
    | some p0 =>
      simp only
      split
      · -- success branch
        constructor
        · intro kv hkv
          rw [aerase_ainsert] at hkv
          exact hp kv (mem_aerase _ _ _ hkv)
        · intro kv hkv
          rcases mem_ainsert _ _ _ _ hkv with h | h
          · subst h; exact Or.inl rfl
          · exact ha kv h
      · -- failure branch
        simp only [handle_payment_failure]
        split
        · -- retry < 3
          simp only [alookup_ainsert_self]
          constructor
          · intro kv hkv
            rw [ainsert_ainsert] at hkv
            rcases mem_ainsert _ _ _ _ hkv with h | h
            · subst h; rfl
            · exact hp kv h
          · exact ha
        · -- retry exhausted
          simp only [alookup_ainsert_self]
          constructor
          · intro kv hkv
            rw [aerase_ainsert] at hkv
            exact hp kv (mem_aerase _ _ _ hkv)
          · intro kv hkv
            rcases mem_ainsert _ _ _ _ hkv with h | h
            · subst h; exact Or.inr (Or.inl rfl)
            · exact ha kv h
  | cancel id =>
    simp only [applyPOp, cancel_payment]
    cases hl : alookup st.pending_payments id with
    | none => exact ⟨hp, ha⟩
    | some p =>
      simp only
      split
      · exact ⟨hp, ha⟩
      · constructor
        · intro kv hkv
          exact hp kv (mem_aerase _ _ _ hkv)
        · intro kv hkv
          rcases mem_ainsert _ _ _ _ hkv with h | h
          · subst h; exact Or.inr (Or.inr rfl)
          · exact ha kv h

theorem runPOps_inv (ops : List POp) :
    pendingInv (runPOps ops) ∧ archiveInv (runPOps ops) := by
  suffices h : ∀ st, pendingInv st → archiveInv st →
      pendingInv (ops.foldl applyPOp st) ∧ archiveInv (ops.foldl applyPOp st) by
    refine h PaymentProcessor.new ?_ ?_
    · intro kv hkv; cases hkv
    · intro kv hkv; cases hkv
  induction ops with
  | nil => exact fun st hps has => ⟨hps, has⟩
  | cons op rest ih =>
    intro st hps has
    obtain ⟨h1, h2⟩ := applyPOp_preserves st op hps has
    exact ih _ h1 h2

/-! ### Retry step lemmas -/

theorem process_fail_retry (st : PaymentProcessor) (id : String)
    (p : PaymentRequest) (k : Nat)
    (hp : alookup st.pending_payments id = some p)
    (hr : alookup st.retry_counts id = some k) (hk : k < 3) :
    (process_payment (fun _ => false) st id).1 = Except.ok () ∧
    alookup (failStep st id).pending_payments id =
      some { p with status := PaymentStatus.Pending } ∧
    alookup (failStep st id).retry_counts id = some (k + 1) ∧
    (failStep st id).completed_payments = st.completed_payments := by
  simp [failStep, process_payment, hp, handle_payment_failure, hr, hk,
    alookup_ainsert_self, ainsert_ainsert]

theorem process_fail_exhausted (st : PaymentProcessor) (id : String)
    (p : PaymentRequest)
    (hp : alookup st.pending_payments id = some p)
    (hr : alookup st.retry_counts id = some 3) :
    (process_payment (fun _ => false) st id).1 =
      Except.error "Payment failed after maximum retries" ∧
    alookup (failStep st id).pending_payments id = none ∧
    alookup (failStep st id).completed_payments id =
      some { p with status := PaymentStatus.Failed } ∧
    alookup (failStep st id).retry_counts id = none := by
  simp [failStep, process_payment, hp, handle_payment_failure, hr,
    alookup_ainsert_self, aerase_ainsert, alookup_aerase_self]

/-- C1: for a payment in the pending set with retry counter 0 whose injected
execution backend reports failure on every attempt, each of the first three
process calls is a recoverable outcome (result ok, retry counter incremented
by one, status reverted to Pending, payment still in the pending set), and
the fourth call is terminal (RetryExhausted error, status Failed, payment
moved from the pending set to the archive, retry counter cleared) — Failed
is reached on exactly the 4th call, never earlier or later. -/
theorem retry_bound (st : PaymentProcessor) (id : String) (p : PaymentRequest)
    (hp : alookup st.pending_payments id = some p)
    (hr : alookup st.retry_counts id = some 0) :
    (process_payment (fun _ => false) st id).1 = Except.ok () ∧
    alookup (failStep st id).pending_payments id =
      some { p with status := PaymentStatus.Pending } ∧
    alookup (failStep st id).retry_counts id = some 1 ∧
    (process_payment (fun _ => false) (failStep st id) id).1 = Except.ok () ∧
    alookup (failStep (failStep st id) id).pending_payments id =
      some { p with status := PaymentStatus.Pending } ∧
    alookup (failStep (failStep st id) id).retry_counts id = some 2 ∧
    (process_payment (fun _ => false) (failStep (failStep st id) id) id).1 =
      Except.ok () ∧
    alookup (failStep (failStep (failStep st id) id) id).pending_payments id =
      some { p with status := PaymentStatus.Pending } ∧
    alookup (failStep (failStep (failStep st id) id) id).retry_counts id =
      some 3 ∧
    (process_payment (fun _ => false)
        (failStep (failStep (failStep st id) id) id) id).1 =
      Except.error "Payment failed after maximum retries" ∧
    alookup (failStep (failStep (failStep (failStep st id) id) id)
        id).pending_payments id = none ∧
    alookup (failStep (failStep (failStep (failStep st id) id) id)
        id).completed_payments id =
      some { p with status := PaymentStatus.Failed } ∧
    alookup (failStep (failStep (failStep (failStep st id) id) id)
        id).retry_counts id = none := by
  obtain ⟨r1, hp1, hr1, _⟩ := process_fail_retry st id p 0 hp hr (by omega)
  obtain ⟨r2, hp2, hr2, _⟩ :=
    process_fail_retry (failStep st id) id _ 1 hp1 hr1 (by omega)
  obtain ⟨r3, hp3, hr3, _⟩ :=
    process_fail_retry (failStep (failStep st id) id) id _ 2 hp2 hr2 (by omega)
  obtain ⟨r4, hp4, hc4, hr4⟩ :=
    process_fail_exhausted (failStep (failStep (failStep st id) id) id) id
      _ hp3 hr3
  exact ⟨r1, hp1, hr1, r2, hp2, hr2, r3, hp3, hr3, r4, hp4, hc4, hr4⟩

/-- Witness for retry_bound: a concrete freshly submitted payment satisfies
the hypotheses, and the 4th always-failing process call reports
RetryExhausted. -/
theorem retry_bound_witness :
    alookup stC1.pending_payments "pay1" = some prC1 ∧
    alookup stC1.retry_counts "pay1" = some 0 ∧
    (process_payment (fun _ => false)
        (failStep (failStep (failStep stC1 "pay1") "pay1") "pay1") "pay1").1 =
      Except.error "Payment failed after maximum retries" :=
  ⟨by decide, by decide,
    (retry_bound stC1 "pay1" prC1 (by decide)
        (by decide)).2.2.2.2.2.2.2.2.2.1⟩

/-- C9: after every sequence of completed processor operations, every
payment in the pending set has status Pending and every payment in the
archive has a terminal status (Completed, Failed or Cancelled); hence in
the serialized execution model the InvalidState branch of cancel is
unreachable from any reachable state. -/
theorem pending_status_invariant (ops : List POp) :
    pendingInv (runPOps ops) ∧ archiveInv (runPOps ops) ∧
    ∀ id, (cancel_payment (runPOps ops) id).1 ≠
      Except.error "Cannot cancel payment that is already processing" := by
  obtain ⟨hp, ha⟩ := runPOps_inv ops
  refine ⟨hp, ha, ?_⟩
  intro id
  cases hl : alookup (runPOps ops).pending_payments id with
  | none => simp [cancel_payment, hl]
  | some p =>
    have hPend : p.status = PaymentStatus.Pending :=
      hp (id, p) (alookup_mem _ _ _ hl)
    simp [cancel_payment, hl, hPend]

/-- Witness for pending_status_invariant: in the concrete state reached by
one submit, the stored payment has status Pending. -/
theorem pending_status_invariant_witness :
    ("pay9", prC9) ∈ (runPOps opsC9).pending_payments ∧
    prC9.status = PaymentStatus.Pending :=
  ⟨by decide, (pending_status_invariant opsC9).1 ("pay9", prC9) (by decide)⟩

/-- C3: cancel returns NotFound when the id is absent from both the pending
set and the archive; returns InvalidState when the payment in the pending
set has status Processing; from status Pending it succeeds, sets the status
to Cancelled and moves the payment from the pending set to the archive; and
on every reachable state a successful cancel implies the payment was in the
pending set with status Pending (cancel never succeeds from another
status). -/
theorem cancel_payment_spec (st : PaymentProcessor) (id : String) :
    ((alookup st.pending_payments id = none ∧
        alookup st.completed_payments id = none) →
      (cancel_payment st id).1 = Except.error "Payment not found") ∧
    (∀ p, alookup st.pending_payments id = some p →
      p.status = PaymentStatus.Processing →
      (cancel_payment st id).1 =
        Except.error "Cannot cancel payment that is already processing") ∧
    (∀ p, alookup st.pending_payments id = some p →
      p.status = PaymentStatus.Pending →
      (cancel_payment st id).1 = Except.ok () ∧
      alookup (cancel_payment st id).2.pending_payments id = none ∧
      alookup (cancel_payment st id).2.completed_payments id =
        some { p with status := PaymentStatus.Cancelled }) ∧
    (∀ ops, st = runPOps ops → (cancel_payment st id).1 = Except.ok () →
      ∃ p, alookup st.pending_payments id = some p ∧
        p.status = PaymentStatus.Pending) := by
  refine ⟨?_, ?_, ?_, ?_⟩
  · rintro ⟨h1, _⟩
    simp [cancel_payment, h1]
  · intro p hp hs
    simp [cancel_payment, hp, hs]
  · intro p hp hs
    have hns : p.status ≠ PaymentStatus.Processing := by
      rw [hs]; intro h; cases h
    refine ⟨by simp [cancel_payment, hp, hns], ?_, ?_⟩
    · simp [cancel_payment, hp, hns, alookup_aerase_self]
    · simp [cancel_payment, hp, hns, alookup_ainsert_self]
  · intro ops hops hok
    cases hl : alookup st.pending_payments id with
    | none => simp [cancel_payment, hl] at hok
    | some p =>
      refine ⟨p, rfl, ?_⟩
      subst hops
      exact (runPOps_inv ops).1 (id, p) (alookup_mem _ _ _ hl)

/-- Witness for cancel_payment_spec: cancelling a concrete freshly
submitted (hence Pending) payment succeeds. -/
theorem cancel_payment_spec_witness :
    alookup stC3.pending_payments "pay3" = some prC3 ∧
    prC3.status = PaymentStatus.Pending ∧
    (cancel_payment stC3 "pay3").1 = Except.ok () :=
  ⟨by decide, by decide,
    ((cancel_payment_spec stC3 "pay3").2.2.1 prC3 (by decide) (by decide)).1⟩

/-! ### Registry selection lemmas -/

theorem min_fold_some (score : ServiceProvider → ℚ)
    (l : List ServiceProvider) (a : ServiceProvider) :
    ∃ m, l.foldl (min_step score) (some a) = some m ∧ (m = a ∨ m ∈ l) ∧
      score m ≤ score a ∧ ∀ x ∈ l, score m ≤ score x := by
  induction l generalizing a with
  | nil => exact ⟨a, rfl, Or.inl rfl, le_refl _, by simp⟩
  | cons x l ih =>
    by_cases h : score x < score a
    · obtain ⟨m, hm, hmem, hle, hall⟩ := ih x
      refine ⟨m, ?_, ?_, ?_, ?_⟩
      · simpa [min_step, h] using hm
      · rcases hmem with h2 | h2
        · exact Or.inr (by simp [h2])
        · exact Or.inr (List.mem_cons_of_mem _ h2)
      · exact le_trans hle (le_of_lt h)
      · intro y hy
        rcases List.mem_cons.mp hy with h2 | h2
        · subst h2; exact hle
        · exact hall y h2
    · obtain ⟨m, hm, hmem, hle, hall⟩ := ih a
      refine ⟨m, ?_, ?_, ?_, ?_⟩
      · simpa [min_step, h] using hm
      · rcases hmem with h2 | h2
        · exact Or.inl h2
        · exact Or.inr (List.mem_cons_of_mem _ h2)
      · exact hle
      · intro y hy
        rcases List.mem_cons.mp hy with h2 | h2
        · subst h2; exact le_trans hle (not_lt.mp h)
        · exact hall y h2

theorem min_by_score_none_iff (score : ServiceProvider → ℚ)
    (l : List ServiceProvider) : min_by_score score l = none ↔ l = [] := by
  cases l with
  | nil => simp [min_by_score]
  | cons x l =>
    simp only [min_by_score, List.foldl_cons]
    obtain ⟨m, hm, -, -, -⟩ := min_fold_some score l x
    have : (min_step score none x) = some x := rfl
    rw [this, hm]
    simp

theorem min_by_score_min (score : ServiceProvider → ℚ)
    (l : List ServiceProvider) (p : ServiceProvider)
    (h : min_by_score score l = some p) :
    p ∈ l ∧ ∀ q ∈ l, score p ≤ score q := by
  cases l with
  | nil => simp [min_by_score] at h
  | cons x l =>
    simp only [min_by_score, List.foldl_cons] at h
    obtain ⟨m, hm, hmem, hle, hall⟩ := min_fold_some score l x
    have hx : (min_step score none x) = some x := rfl
    rw [hx, hm] at h
    obtain rfl : m = p := by injection h
    constructor
    · rcases hmem with h2 | h2
      · exact h2 ▸ List.mem_cons_self _ _
      · exact List.mem_cons_of_mem _ h2
    · intro q hq
      rcases List.mem_cons.mp hq with h2 | h2
      · subst h2; exact hle
      · exact hall q h2

/-- C2: get_best_provider filters exactly the active providers supporting
the chain with cost at most max_cost and reliability at least 0.8, returns
none exactly when that candidate set is empty, and otherwise returns a
candidate whose composite score (which equals the formula of the spec,
0.3 of 1/(cost+1) plus 0.4 of reliability plus 0.3 of the performance
term, with 0.5 when no history is recorded) is minimal among all
candidates — minimum selection is the implemented direction. -/
theorem get_best_provider_spec (reg : ServiceRegistry) (chain : String)
    (max_cost : Nat) :
    (∀ q, q ∈ best_provider_candidates reg chain max_cost ↔
      (q ∈ reg.providers.map (fun kv => kv.2) ∧ q.is_active = true ∧
        chain ∈ q.supported_chains ∧ q.cost_per_request ≤ max_cost ∧
        (8 : ℚ)/10 ≤ q.reliability_score)) ∧
    (get_best_provider reg chain max_cost = none ↔
      best_provider_candidates reg chain max_cost = []) ∧
    (∀ p, get_best_provider reg chain max_cost = some p →
      p ∈ best_provider_candidates reg chain max_cost ∧
      ∀ q ∈ best_provider_candidates reg chain max_cost,
        calculate_provider_score reg p ≤ calculate_provider_score reg q) ∧
    (∀ p, calculate_provider_score reg p = spec_composite_score reg p) := by
  refine ⟨?_, ?_, ?_, ?_⟩
  · intro q
    simp [best_provider_candidates, List.mem_filter, and_assoc]
  · exact min_by_score_none_iff _ _
  · intro p h
    exact min_by_score_min _ _ p h
  · intro p
    cases h : alookup reg.performance_history p.id with
    | none => simp [calculate_provider_score, spec_composite_score, h]; ring
    | some history =>
      by_cases he : history.isEmpty
      · simp [calculate_provider_score, spec_composite_score, h, he]; ring
      · simp [calculate_provider_score, spec_composite_score, h, he]; ring

/-- Witness for get_best_provider_spec: on a concrete two-provider registry
the minimum-scoring candidate B is selected and is minimal. -/
theorem get_best_provider_spec_witness :
    get_best_provider regC2 "eth" 20 = some provB ∧
    provB ∈ best_provider_candidates regC2 "eth" 20 ∧
    ∀ q ∈ best_provider_candidates regC2 "eth" 20,
      calculate_provider_score regC2 provB ≤ calculate_provider_score regC2 q := by
  have h : get_best_provider regC2 "eth" 20 = some provB := by
    norm_num [get_best_provider, best_provider_candidates, min_by_score,
      min_step, calculate_provider_score, alookup, regC2, provA, provB]
  obtain ⟨h1, h2⟩ := (get_best_provider_spec regC2 "eth" 20).2.2.1 provB h
  exact ⟨h, h1, h2⟩

/-- Counterexample for C4: recording performance for an unregistered
provider id does not fail with NotFound — the source function returns unit
unconditionally and leaves the registry unchanged (a silent no-op). -/
theorem update_provider_performance_no_error :
    alookup ServiceRegistry.new.providers "unknown" = none ∧
    alookup ServiceRegistry.new.performance_history "unknown" = none ∧
    update_provider_performance ServiceRegistry.new "unknown" 5 =
      ServiceRegistry.new :=
  ⟨rfl, rfl, rfl⟩

/-- C4 amended: recordPerformance silently does nothing when the provider
id is unknown (no NotFound error is produced — the function has no error
result); when the id is registered it appends the response time to that
provider's performance buffer, evicting the oldest entry once the length
exceeds 100, and leaves the provider table unchanged. -/
theorem update_provider_performance_spec (reg : ServiceRegistry)
    (id : String) (rt : ℚ) :
    (alookup reg.performance_history id = none →
      update_provider_performance reg id rt = reg) ∧
    (∀ h, alookup reg.performance_history id = some h →
      alookup (update_provider_performance reg id rt).performance_history id =
        some (if (h ++ [rt]).length > 100 then (h ++ [rt]).tail
              else h ++ [rt]) ∧
      (update_provider_performance reg id rt).providers = reg.providers) := by
  constructor
  · intro h
    simp [update_provider_performance, h]
  · intro h hl
    constructor
    · simp [update_provider_performance, hl, alookup_ainsert_self]
    · simp [update_provider_performance, hl]

/-- Witness for update_provider_performance_spec: recording a response time
for the registered provider P4 appends it to the (empty) buffer. -/
theorem update_provider_performance_spec_witness :
    alookup regC4.performance_history "P4" = some [] ∧
    alookup (update_provider_performance regC4 "P4" 5).performance_history
      "P4" = some [5] :=
  ⟨by decide, by
    simpa using
      ((update_provider_performance_spec regC4 "P4" 5).2 [] (by decide)).1⟩

/-! ### Ring buffer lemmas -/

theorem pushCap_eq_small {α : Type} (cap : Nat) (h : List α) (x : α)
    (hlt : h.length < cap) : pushCap cap h x = h ++ [x] := by
  have hc : ¬((h ++ [x]).length > cap) := by
    simp only [List.length_append, List.length_singleton]
    omega
  simp only [pushCap, if_neg hc]

theorem pushCap_eq_full {α : Type} (cap : Nat) (h : List α) (x : α)
    (heq : h.length = cap) :
    pushCap cap h x = (h ++ [x]).drop 1 := by
  have hc : (h ++ [x]).length > cap := by
    simp only [List.length_append, List.length_singleton]
    omega
  simp only [pushCap, if_pos hc, List.drop_one]

theorem pushCap_foldl {α : Type} (cap : Nat) (hcap : 1 ≤ cap)
    (xs : List α) : ∀ h : List α, h.length ≤ cap →
    List.foldl (pushCap cap) h xs =
      (h ++ xs).drop (h.length + xs.length - cap) := by
  induction xs using List.reverseRecOn with
  | nil =>
    intro h hle
    simp [Nat.sub_eq_zero_of_le hle]
  | append_singleton xs x ih =>
    intro h hle
    rw [List.foldl_append, List.foldl_cons, List.foldl_nil, ih h hle]
    have hlen : (h ++ xs).length = h.length + xs.length :=
      List.length_append _ _
    by_cases hn : h.length + xs.length < cap
    · have h0 : h.length + xs.length - cap = 0 := by omega
      have h1 : h.length + (xs ++ [x]).length - cap = 0 := by
        simp only [List.length_append, List.length_singleton]
        omega
      rw [h0, List.drop_zero, h1, List.drop_zero,
        pushCap_eq_small cap _ x (by omega), List.append_assoc]
    · have hdlen : ((h ++ xs).drop (h.length + xs.length - cap)).length = cap := by
        rw [List.length_drop, hlen]
        omega
      rw [pushCap_eq_full cap _ x hdlen]
      rw [← List.drop_append_of_le_length (by omega)]
      rw [List.drop_drop]
      rw [← List.append_assoc]
      congr 1
      simp only [List.length_append, List.length_singleton]
      omega

theorem record_usage_history (opt : CostOptimizer)
    (chain provider_id : String) (cost : Nat) (success : Bool) (rt : ℚ)
    (t : Nat) :
    (record_usage opt chain provider_id cost success rt t).usage_history =
      pushCap 1000 opt.usage_history
        { timestamp := t, chain := chain, provider_id := provider_id,
          cost := cost, success := success, response_time := rt } := by
  simp only [record_usage, update_chain_costs, pushCap]
  split <;> rfl

theorem runUsage_history (evs : List UEvent) : ∀ opt : CostOptimizer,
    (runUsage opt evs).usage_history =
      List.foldl (pushCap 1000) opt.usage_history (evs.map toRecord) := by
  induction evs with
  | nil => intro opt; rfl
  | cons e evs ih =>
    intro opt
    simp only [runUsage, List.foldl_cons, List.map_cons] at ih ⊢
    rw [ih (applyUEvent opt e)]
    congr 1
    exact record_usage_history opt e.chain e.provider_id e.cost e.success
      e.response_time e.t

theorem applyRegOp_perf (reg : ServiceRegistry) (op : RegOp)
    (h : ∀ kv ∈ reg.performance_history, kv.2.length ≤ 100) :
    ∀ kv ∈ (applyRegOp reg op).performance_history, kv.2.length ≤ 100 := by
  cases op with
  | register p =>
    simp only [applyRegOp, register_provider]
    split
    · exact h
    · intro kv hkv
      rcases mem_ainsert _ _ _ _ hkv with h2 | h2
      · subst h2; simp
      · exact h kv h2
  | recordPerf id rt =>
    simp only [applyRegOp, update_provider_performance]
    cases hl : alookup reg.performance_history id with
    | none => exact h
    | some hist =>
      simp only
      intro kv hkv
      rcases mem_ainsert _ _ _ _ hkv with h2 | h2
      · subst h2
        have hh : hist.length ≤ 100 := h (id, hist) (alookup_mem _ _ _ hl)
        simp only
        split
        · simp only [List.length_tail, List.length_append,
            List.length_singleton]
          omega
        · next hcond =>
          simp only [List.length_append, List.length_singleton] at hcond ⊢
          omega
      · exact h kv h2
  | deactivate id =>
    simp only [applyRegOp, deactivate_provider]
    cases hl : alookup reg.providers id with
    | none => exact h
    | some p => exact h

theorem runRegOps_perf (rops : List RegOp) :
    ∀ kv ∈ (runRegOps rops).performance_history, kv.2.length ≤ 100 := by
  suffices hs : ∀ reg, (∀ kv ∈ reg.performance_history, kv.2.length ≤ 100) →
      ∀ kv ∈ (rops.foldl applyRegOp reg).performance_history,
        kv.2.length ≤ 100 by
    refine hs ServiceRegistry.new ?_
    intro kv hkv; cases hkv
  induction rops with
  | nil => exact fun reg hr => hr
  | cons op rest ih =>
    intro reg hr
    exact ih _ (applyRegOp_perf reg op hr)

theorem update_perf_step (reg : ServiceRegistry) (p_id : String) (rt : ℚ)
    (hist : List ℚ)
    (hl : alookup reg.performance_history p_id = some hist) :
    alookup (update_provider_performance reg p_id rt).performance_history
      p_id = some (pushCap 100 hist rt) := by
  simp [update_provider_performance, hl, alookup_ainsert_self, pushCap]

theorem update_perf_foldl (p_id : String) (rts : List ℚ) :
    ∀ (reg : ServiceRegistry) (hist : List ℚ),
    alookup reg.performance_history p_id = some hist →
    alookup ((rts.foldl (fun r rt => update_provider_performance r p_id rt)
        reg)).performance_history p_id =
      some (rts.foldl (pushCap 100) hist) := by
  induction rts with
  | nil => exact fun reg hist hl => hl
  | cons rt rts ih =>
    intro reg hist hl
    simp only [List.foldl_cons]
    exact ih _ _ (update_perf_step reg p_id rt hist hl)

/-- C7: after every sequence of operations the global usage-history buffer
is exactly the suffix of the inserted records past the first
length-minus-1000 (so it holds at most 1000 records, eviction is FIFO: in
particular 1001 insertions keep exactly the last 1000, in insertion order,
the oldest evicted), and every provider performance history holds at most
100 entries, with FIFO content given by the same suffix law with cap
100. -/
theorem ring_buffer_bounds :
    (∀ (s : OptimizationSettings) (evs : List UEvent),
      (runUsage (CostOptimizer.new s) evs).usage_history =
        (evs.map toRecord).drop (evs.length - 1000)) ∧
    (∀ (s : OptimizationSettings) (evs : List UEvent),
      (runUsage (CostOptimizer.new s) evs).usage_history.length ≤ 1000) ∧
    (∀ rops : List RegOp,
      ((runRegOps rops).performance_history.all
        (fun kv => decide (kv.2.length ≤ 100))) = true) ∧
    (∀ (p : ServiceProvider) (rts : List ℚ),
      alookup ((rts.foldl (fun r rt => update_provider_performance r p.id rt)
          (register_provider ServiceRegistry.new p).2)).performance_history
        p.id = some (rts.drop (rts.length - 100))) := by
  have husage : ∀ (s : OptimizationSettings) (evs : List UEvent),
      (runUsage (CostOptimizer.new s) evs).usage_history =
        (evs.map toRecord).drop (evs.length - 1000) := by
    intro s evs
    rw [runUsage_history]
    have h0 : (CostOptimizer.new s).usage_history = [] := rfl
    rw [h0, pushCap_foldl 1000 (by omega) _ [] (by simp)]
    simp [List.length_map]
  refine ⟨husage, ?_, ?_, ?_⟩
  · intro s evs
    rw [husage s evs]
    rw [List.length_drop, List.length_map]
    omega
  · intro rops
    rw [List.all_eq_true]
    intro kv hkv
    simp only [decide_eq_true_eq]
    exact runRegOps_perf rops kv hkv
  · intro p rts
    have hreg : alookup ((register_provider ServiceRegistry.new
        p).2).performance_history p.id = some [] := by
      simp [register_provider, ServiceRegistry.new, alookup,
        alookup_ainsert_self, ainsert]
    rw [update_perf_foldl p.id rts _ [] hreg]
    rw [pushCap_foldl 100 (by omega) _ [] (by simp)]
    simp

/-! ### Streaming mean lemmas -/

theorem record_usage_chain_costs (opt : CostOptimizer)
    (chain provider_id : String) (cost : Nat) (success : Bool) (rt : ℚ)
    (t : Nat) :
    (record_usage opt chain provider_id cost success rt t).chain_costs =
      (update_chain_costs opt chain cost success t).chain_costs := by
  simp only [record_usage, update_chain_costs]
  split <;> rfl

theorem update_chain_entry (opt : CostOptimizer) (chain : String)
    (cost : Nat) (success : Bool) (t : Nat) (d : ChainCostData)
    (hl : alookup opt.chain_costs chain = some d) :
    alookup (update_chain_costs opt chain cost success t).chain_costs chain =
      some
        { average_cost :=
            (d.average_cost * (d.volume : ℚ) + (cost : ℚ)) /
              ((d.volume : ℚ) + 1),
          volume := d.volume + 1,
          success_rate :=
            (d.success_rate * (d.volume : ℚ) + (if success then 1 else 0)) /
              ((d.volume : ℚ) + 1),
          last_updated := t } := by
  simp [update_chain_costs, hl, alookup_ainsert_self]

theorem update_chain_entry_new (opt : CostOptimizer) (chain : String)
    (cost : Nat) (success : Bool) (t : Nat)
    (hl : alookup opt.chain_costs chain = none) :
    alookup (update_chain_costs opt chain cost success t).chain_costs chain =
      some
        { average_cost := (cost : ℚ), volume := 1,
          success_rate := (if success then 1 else 0), last_updated := t } := by
  simp [update_chain_costs, hl, alookup_ainsert_self]

theorem runUsage_chain_stats (c : String) (evs : List UEvent) :
    ∀ (opt : CostOptimizer) (d : ChainCostData),
    (∀ e ∈ evs, e.chain = c) →
    alookup opt.chain_costs c = some d →
    ∃ d2, alookup (runUsage opt evs).chain_costs c = some d2 ∧
      d2.volume = d.volume + evs.length ∧
      d2.average_cost * (d2.volume : ℚ) =
        d.average_cost * (d.volume : ℚ) +
          (evs.map (fun e => (e.cost : ℚ))).sum ∧
      d2.success_rate * (d2.volume : ℚ) =
        d.success_rate * (d.volume : ℚ) +
          ((evs.filter (fun e => e.success)).length : ℚ) := by
  induction evs with
  | nil =>
    intro opt d _ hl
    exact ⟨d, hl, by simp, by simp, by simp⟩
  | cons e evs ih =>
    intro opt d hc hl
    have hec : e.chain = c := hc e (List.mem_cons_self _ _)
    have hstep : alookup (applyUEvent opt e).chain_costs c =
        some
          { average_cost :=
              (d.average_cost * (d.volume : ℚ) + (e.cost : ℚ)) /
                ((d.volume : ℚ) + 1),
            volume := d.volume + 1,
            success_rate :=
              (d.success_rate * (d.volume : ℚ) +
                  (if e.success then 1 else 0)) / ((d.volume : ℚ) + 1),
            last_updated := e.t } := by
      rw [applyUEvent, record_usage_chain_costs, hec]
      exact update_chain_entry opt c e.cost e.success e.t d hl
    obtain ⟨d2, hd2, hvol, havg, hsucc⟩ :=
      ih (applyUEvent opt e) _ (fun x hx => hc x (List.mem_cons_of_mem _ hx))
        hstep
    have hnz : ((d.volume : ℚ) + 1) ≠ 0 := by
      have : (0 : ℚ) ≤ (d.volume : ℚ) := Nat.cast_nonneg _
      intro hcon
      nlinarith
    refine ⟨d2, by simpa [runUsage] using hd2, ?_, ?_, ?_⟩
    · simp only [hvol]
      simp
      omega
    · rw [havg]
      simp only [List.map_cons, List.sum_cons]
      field_simp
      ring
    · rw [hsucc]
      by_cases hs : e.success
      · simp [List.filter_cons, hs]
        field_simp
        ring
      · simp [List.filter_cons, hs]
        field_simp

/-- C6: folding any sequence of usage events for one chain (starting with
no tracked entry) leaves chain stats whose running mean cost is the exact
arithmetic mean of the recorded costs and whose success rate is the exact
arithmetic mean of the 0/1 success indicators; the implemented update
((oldMean times (n-1)) + value) / n agrees with the spec form
oldMean + (value - oldMean)/n in exact arithmetic; and the chain stats
update never reads the stored raw usage history. -/
theorem streaming_mean_correct (c : String) (opt0 : CostOptimizer)
    (evs : List UEvent)
    (hc : ∀ e ∈ evs, e.chain = c)
    (h0 : alookup opt0.chain_costs c = none)
    (hne : evs ≠ []) :
    (∃ d, alookup (runUsage opt0 evs).chain_costs c = some d ∧
      d.volume = evs.length ∧
      d.average_cost =
        (evs.map (fun e => (e.cost : ℚ))).sum / (evs.length : ℚ) ∧
      d.success_rate =
        ((evs.filter (fun e => e.success)).length : ℚ) / (evs.length : ℚ)) ∧
    (∀ (m v n : ℚ), n ≠ 0 → (m * (n - 1) + v) / n = m + (v - m) / n) ∧
    (∀ (opt : CostOptimizer) (h : List UsageRecord)
        (chain provider_id : String) (cost : Nat) (success : Bool) (rt : ℚ)
        (t : Nat),
      (record_usage { opt with usage_history := h } chain provider_id cost
          success rt t).chain_costs =
        (record_usage opt chain provider_id cost success rt t).chain_costs) := by
  refine ⟨?_, ?_, ?_⟩
  · cases evs with
    | nil => exact absurd rfl hne
    | cons e rest =>
      have hec : e.chain = c := hc e (List.mem_cons_self _ _)
      have hstep : alookup (applyUEvent opt0 e).chain_costs c =
          some { average_cost := (e.cost : ℚ), volume := 1,
                 success_rate := (if e.success then 1 else 0),
                 last_updated := e.t } := by
        rw [applyUEvent, record_usage_chain_costs, hec]
        exact update_chain_entry_new opt0 c e.cost e.success e.t h0
      obtain ⟨d2, hd2, hvol, havg, hsucc⟩ :=
        runUsage_chain_stats c rest (applyUEvent opt0 e) _
          (fun x hx => hc x (List.mem_cons_of_mem _ hx)) hstep
      have hlen0 : (e :: rest).length ≠ 0 := by simp
      have hlen : (((e :: rest).length : Nat) : ℚ) ≠ 0 :=
        Nat.cast_ne_zero.mpr hlen0
      have hv2 : (e :: rest).length = d2.volume := by
        rw [hvol]
        simp [List.length_cons]
        omega
      refine ⟨d2, by simpa [runUsage] using hd2, hv2.symm, ?_, ?_⟩
      · rw [eq_div_iff hlen, hv2, havg]
        simp only [List.map_cons, List.sum_cons]
        ring
      · rw [eq_div_iff hlen, hv2, hsucc]
        by_cases hs : e.success
        · simp [List.filter_cons, hs]
          ring
        · simp [List.filter_cons, hs]
  · intro m v n hn
    field_simp
    ring
  · intro opt h chain provider_id cost success rt t
    rw [record_usage_chain_costs, record_usage_chain_costs]
    rfl

/-- Witness for streaming_mean_correct: two concrete events with costs 4
and 6 and one success give mean cost 5 and success rate one half. -/
theorem streaming_mean_correct_witness :
    ∃ d, alookup (runUsage (CostOptimizer.new OptimizationSettings.default)
        [evC6a, evC6b]).chain_costs "eth" = some d ∧
      d.volume = 2 ∧ d.average_cost = 5 ∧ d.success_rate = 1/2 := by
  obtain ⟨⟨d, hd, hv, ha, hs⟩, -, -⟩ :=
    streaming_mean_correct "eth"
      (CostOptimizer.new OptimizationSettings.default) [evC6a, evC6b]
      (by decide) rfl (by simp)
  refine ⟨d, hd, by simpa using hv, ?_, ?_⟩
  · rw [ha]
    norm_num [evC6a, evC6b]
  · rw [hs]
    norm_num [evC6a, evC6b, List.filter]

/-! ### Usage metrics -/

/-- C8: when every stored timestamp is at most now (true of states the
canister reaches, since records are stamped with the current time), the
implemented filter selects exactly the records with timestamp in the
interval from now minus window to now — the subtraction now minus
timestamp never underflows, since the window is never subtracted from
now — and the metrics report the count, success and failure counts, cost
volume and mean response time of those records; cost efficiency is
successes over total volume times 1000000 whenever the volume is nonzero,
and exactly 0 (without any division) when no records are in the window. -/
theorem usage_metrics_spec (opt : CostOptimizer) (now time_window : Nat)
    (hts : ∀ r ∈ opt.usage_history, r.timestamp ≤ now) :
    (opt.usage_history.filter
        (fun r => decide (now - r.timestamp ≤ time_window)) =
      opt.usage_history.filter
        (fun r => decide (now - time_window ≤ r.timestamp ∧
          r.timestamp ≤ now))) ∧
    (get_usage_metrics opt now time_window).total_requests =
      (opt.usage_history.filter
        (fun r => decide (now - r.timestamp ≤ time_window))).length ∧
    (get_usage_metrics opt now time_window).successful_payments =
      ((opt.usage_history.filter
        (fun r => decide (now - r.timestamp ≤ time_window))).filter
          (fun r => r.success)).length ∧
    (get_usage_metrics opt now time_window).failed_payments =
      (get_usage_metrics opt now time_window).total_requests -
        (get_usage_metrics opt now time_window).successful_payments ∧
    (get_usage_metrics opt now time_window).total_volume =
      ((opt.usage_history.filter
        (fun r => decide (now - r.timestamp ≤ time_window))).map
          (fun r => r.cost)).sum ∧
    (opt.usage_history.filter
        (fun r => decide (now - r.timestamp ≤ time_window)) ≠ [] →
      (get_usage_metrics opt now time_window).average_response_time =
        ((opt.usage_history.filter
          (fun r => decide (now - r.timestamp ≤ time_window))).map
            (fun r => r.response_time)).sum /
          (((opt.usage_history.filter
            (fun r => decide (now - r.timestamp ≤ time_window))).length : Nat) : ℚ)) ∧
    (opt.usage_history.filter
        (fun r => decide (now - r.timestamp ≤ time_window)) = [] →
      (get_usage_metrics opt now time_window).cost_efficiency = some 0) ∧
    (((opt.usage_history.filter
        (fun r => decide (now - r.timestamp ≤ time_window))).map
          (fun r => r.cost)).sum ≠ 0 →
      (get_usage_metrics opt now time_window).cost_efficiency =
        some (((((opt.usage_history.filter
            (fun r => decide (now - r.timestamp ≤ time_window))).filter
              (fun r => r.success)).length : Nat) : ℚ) /
          ((((opt.usage_history.filter
            (fun r => decide (now - r.timestamp ≤ time_window))).map
              (fun r => r.cost)).sum : Nat) : ℚ) * 1000000)) := by
  refine ⟨?_, rfl, rfl, rfl, rfl, ?_, ?_, ?_⟩
  · apply List.filter_congr
    intro x hx
    have h := hts x hx
    exact decide_eq_decide.mpr (by omega)
  · intro hne
    have hE : (opt.usage_history.filter
        (fun r => decide (now - r.timestamp ≤ time_window))).isEmpty = false := by
      cases hE : (opt.usage_history.filter
          (fun r => decide (now - r.timestamp ≤ time_window))).isEmpty
      · rfl
      · exact absurd (List.isEmpty_iff.mp hE) hne
    simp only [get_usage_metrics, hE]
    rfl
  · intro hnil
    simp only [get_usage_metrics, hnil]
    rfl
  · intro hv
    have hne : opt.usage_history.filter
        (fun r => decide (now - r.timestamp ≤ time_window)) ≠ [] := by
      intro h
      rw [h] at hv
      simp at hv
    have hlen : 0 < (opt.usage_history.filter
        (fun r => decide (now - r.timestamp ≤ time_window))).length :=
      List.length_pos.mpr hne
    have hvq : ((((opt.usage_history.filter
        (fun r => decide (now - r.timestamp ≤ time_window))).map
          (fun r => r.cost)).sum : Nat) : ℚ) ≠ 0 :=
      Nat.cast_ne_zero.mpr hv
    simp only [get_usage_metrics, divF, if_pos hlen, if_neg hvq,
      Option.map_some']

/-- C10: a reachable optimizer state with one successful zero-cost usage
record inside the window passes the zero-guard (it tests total requests,
not total volume), so the cost-efficiency computation divides by a zero
total volume and, in f64, produces a non-finite value (modelled as none)
rather than a number. -/
theorem cost_efficiency_div_zero :
    (get_usage_metrics optC10 10 100).total_requests = 1 ∧
    (get_usage_metrics optC10 10 100).total_volume = 0 ∧
    (get_usage_metrics optC10 10 100).cost_efficiency = none := by
  refine ⟨rfl, rfl, ?_⟩
  simp [optC10, get_usage_metrics, divF, record_usage, update_chain_costs,
    CostOptimizer.new, OptimizationSettings.default]

/-- Witness for usage_metrics_spec: on a concrete state with one record
inside the 20-unit window at time 60 and one outside, the reported volume
equals the in-window cost sum. -/
theorem usage_metrics_spec_witness :
    (∀ r ∈ optC8.usage_history, r.timestamp ≤ 60) ∧
    (get_usage_metrics optC8 60 20).total_volume =
      ((optC8.usage_history.filter
        (fun r => decide (60 - r.timestamp ≤ 20))).map
          (fun r => r.cost)).sum :=
  ⟨by decide, (usage_metrics_spec optC8 60 20 (by decide)).2.2.2.2.1⟩

/-! ### Rebalancing lemmas -/

theorem max_fold_some (l : List (String × ChainCostData))
    (a : String × ChainCostData) :
    ∃ m, l.foldl max_step (some a) = some m ∧ (m = a ∨ m ∈ l) ∧
      a.2.success_rate ≤ m.2.success_rate ∧
      ∀ x ∈ l, x.2.success_rate ≤ m.2.success_rate := by
  induction l generalizing a with
  | nil => exact ⟨a, rfl, Or.inl rfl, le_refl _, by simp⟩
  | cons x l ih =>
    by_cases h : a.2.success_rate ≤ x.2.success_rate
    · obtain ⟨m, hm, hmem, hle, hall⟩ := ih x
      refine ⟨m, ?_, ?_, ?_, ?_⟩
      · simpa [max_step, h] using hm
      · rcases hmem with h2 | h2
        · exact Or.inr (by simp [h2])
        · exact Or.inr (List.mem_cons_of_mem _ h2)
      · exact le_trans h hle
      · intro y hy
        rcases List.mem_cons.mp hy with h2 | h2
        · subst h2; exact hle
        · exact hall y h2
    · obtain ⟨m, hm, hmem, hle, hall⟩ := ih a
      refine ⟨m, ?_, ?_, ?_, ?_⟩
      · simpa [max_step, h] using hm
      · rcases hmem with h2 | h2
        · exact Or.inl h2
        · exact Or.inr (List.mem_cons_of_mem _ h2)
      · exact hle
      · intro y hy
        rcases List.mem_cons.mp hy with h2 | h2
        · subst h2; exact le_trans (le_of_not_le h) hle
        · exact hall y h2

theorem max_by_success_rate_max (l : List (String × ChainCostData))
    (hne : l ≠ []) :
    ∃ m, max_by_success_rate l = some m ∧ m ∈ l ∧
      ∀ x ∈ l, x.2.success_rate ≤ m.2.success_rate := by
  cases l with
  | nil => exact absurd rfl hne
  | cons x l =>
    simp only [max_by_success_rate, List.foldl_cons]
    obtain ⟨m, hm, hmem, hle, hall⟩ := max_fold_some l x
    have hx : max_step none x = some x := rfl
    rw [hx, hm]
    refine ⟨m, rfl, ?_, ?_⟩
    · rcases hmem with h2 | h2
      · exact h2 ▸ List.mem_cons_self _ _
      · exact List.mem_cons_of_mem _ h2
    · intro y hy
      rcases List.mem_cons.mp hy with h2 | h2
      · subst h2; exact hle
      · exact hall y h2

theorem suggestion_for_eq (opt : CostOptimizer) (c : String) :
    suggestion_for opt c =
      if chain_below_threshold opt c then some (mk_suggestion opt c)
      else none := by
  simp only [suggestion_for, chain_below_threshold, mk_suggestion]
  cases hl : alookup opt.chain_costs c with
  | none => rfl
  | some d =>
    by_cases h : d.success_rate < opt.settings.reliability_threshold
    · simp [h]
    · simp [h]

theorem filterMap_if {α β : Type} (p : α → Bool) (f : α → β) (l : List α) :
    (l.filterMap (fun a => if p a then some (f a) else none)) =
      (l.filter p).map f := by
  induction l with
  | nil => rfl
  | cons x l ih =>
    by_cases h : p x <;>
      simp [List.filterMap_cons, List.filter_cons, h, ih]

theorem foldl_maxF_inf (l : List F64) : l.foldl maxF F64.inf = F64.inf := by
  induction l with
  | nil => rfl
  | cons x l ih => cases x <;> simpa [maxF] using ih

theorem foldl_maxF_fin (l : List ℚ) : ∀ a : ℚ,
    (l.map F64.fin).foldl maxF (F64.fin a) = F64.fin (l.foldl max a) := by
  induction l with
  | nil => intro a; rfl
  | cons x l ih =>
    intro a
    simp only [List.map_cons, List.foldl_cons]
    exact ih (max a x)

theorem foldl_maxF_nonneg_or_inf (l : List F64) : ∀ a : ℚ, 0 ≤ a →
    (∃ b, l.foldl maxF (F64.fin a) = F64.fin b ∧ 0 ≤ b) ∨
      l.foldl maxF (F64.fin a) = F64.inf := by
  induction l with
  | nil => exact fun a ha => Or.inl ⟨a, rfl, ha⟩
  | cons x l ih =>
    intro a ha
    cases x with
    | fin b =>
      simp only [List.foldl_cons]
      have hx : maxF (F64.fin a) (F64.fin b) = F64.fin (max a b) := rfl
      rw [hx]
      exact ih (max a b) (le_trans ha (le_max_left _ _))
    | inf =>
      simp only [List.foldl_cons]
      have hx : maxF (F64.fin a) F64.inf = F64.inf := rfl
      rw [hx, foldl_maxF_inf]
      exact Or.inr rfl
    | ninf =>
      simp only [List.foldl_cons]
      have hx : maxF (F64.fin a) F64.ninf = F64.fin a := rfl
      rw [hx]
      exact ih a ha
    | nan =>
      simp only [List.foldl_cons]
      have hx : maxF (F64.fin a) F64.nan = F64.fin a := rfl
      rw [hx]
      exact ih a ha

/-- Counterexample for C5.  First state: the underperforming preferred
chain Polygon is the only tracked chain, so the emitted suggestion names
Polygon both as source and as target (the fallback target equals the
source), refuting that the target chain always differs from the source.
Second state: with the default preferred chains, a zero-cost REI failure
and a zero-cost Polygon success give both chains mean cost 0, the
reciprocal 1.0/0.0 is infinite, the f64::max fold yields infinity, and the
final product 0.0 times infinity is NaN — refuting that potentialSavings
is always at least 0, on a state whose rates lie in [0,1] and whose mean
costs are nonnegative. -/
theorem rebalancing_claim_counterexample :
    suggest_chain_rebalancing optC5 =
      [{ from_chain := "Polygon", to_chain := "Polygon",
         reason := "Low success rate", potential_savings := F64.fin 0 }] ∧
    suggest_chain_rebalancing optC5b =
      [{ from_chain := "REI", to_chain := "Polygon",
         reason := "Low success rate", potential_savings := F64.nan }] := by
  constructor
  · norm_num [optC5, suggest_chain_rebalancing, suggestion_for,
      find_alternative_chain, max_by_success_rate, max_step,
      calculate_potential_savings, record_usage, update_chain_costs,
      CostOptimizer.new, OptimizationSettings.default, alookup, ainsert,
      List.filterMap_cons, qmulF, recipF, maxF]
  · have h1 : record_usage (CostOptimizer.new OptimizationSettings.default)
        "REI" "prov" 0 false 5 0 =
        { settings := OptimizationSettings.default,
          usage_history :=
            [{ timestamp := 0, chain := "REI", provider_id := "prov",
               cost := 0, success := false, response_time := 5 }],
          chain_costs :=
            [("REI", { average_cost := 0, volume := 1, success_rate := 0,
                       last_updated := 0 })] } := by
      simp [record_usage, update_chain_costs, CostOptimizer.new,
        alookup, ainsert]
    have h2 : optC5b =
        { settings := OptimizationSettings.default,
          usage_history :=
            [{ timestamp := 0, chain := "REI", provider_id := "prov",
               cost := 0, success := false, response_time := 5 },
             { timestamp := 1, chain := "Polygon", provider_id := "prov",
               cost := 0, success := true, response_time := 5 }],
          chain_costs :=
            [("REI", { average_cost := 0, volume := 1, success_rate := 0,
                       last_updated := 0 }),
             ("Polygon", { average_cost := 0, volume := 1,
                           success_rate := 1, last_updated := 1 })] } := by
      rw [optC5b, h1]
      simp [record_usage, update_chain_costs, alookup, ainsert]
    rw [h2]
    simp [suggest_chain_rebalancing, suggestion_for,
      find_alternative_chain, max_by_success_rate, max_step,
      calculate_potential_savings, OptimizationSettings.default, alookup,
      List.filterMap_cons, qmulF, recipF, maxF]
    norm_num

/-- C5 amended: suggestRebalancing emits exactly one suggestion per entry
of the preferred-chain list that has tracked stats with success rate below
the threshold, each carrying the fixed reason string; the target chain is
the tracked chain with the highest success rate among the others when one
exists, and otherwise the fixed fallback Polygon, which can coincide with
the source chain; potentialSavings is computed in f64 as
((1 - successRate) times meanCost) of the source chain times the
f64::max fold (seeded at 0, NaN-ignoring) over all chains of
successRate times 1/meanCost: when every tracked mean cost is positive
this equals the exact spec formula, and when all tracked rates lie in
[0,1] with nonnegative mean costs the result is a nonnegative finite
value, positive infinity, or NaN — never a negative finite value. -/
theorem suggest_rebalancing_spec (opt : CostOptimizer) :
    (suggest_chain_rebalancing opt =
      (opt.settings.preferred_chains.filter (chain_below_threshold opt)).map
        (mk_suggestion opt)) ∧
    (∀ s ∈ suggest_chain_rebalancing opt,
      s.reason = "Low success rate" ∧
      ∃ c, s = mk_suggestion opt c ∧ c ∈ opt.settings.preferred_chains ∧
        chain_below_threshold opt c = true) ∧
    (∀ c, (∃ kv ∈ opt.chain_costs, kv.1 ≠ c) →
      ∃ kv ∈ opt.chain_costs, kv.1 ≠ c ∧
        find_alternative_chain opt c = kv.1 ∧
        ∀ kv2 ∈ opt.chain_costs, kv2.1 ≠ c →
          kv2.2.success_rate ≤ kv.2.success_rate) ∧
    (∀ c, (∀ kv ∈ opt.chain_costs, kv.1 = c) →
      find_alternative_chain opt c = "Polygon") ∧
    (∀ c d, alookup opt.chain_costs c = some d →
      (∀ kv ∈ opt.chain_costs, 0 < kv.2.average_cost) →
      calculate_potential_savings opt c =
        F64.fin ((1 - d.success_rate) * d.average_cost *
          ((opt.chain_costs.map
            (fun kv => kv.2.success_rate / kv.2.average_cost)).foldl
              max 0))) ∧
    (chainStatsInRange opt → ∀ c q,
      calculate_potential_savings opt c = F64.fin q → 0 ≤ q) := by
  have heq : suggest_chain_rebalancing opt =
      (opt.settings.preferred_chains.filter (chain_below_threshold opt)).map
        (mk_suggestion opt) := by
    have hfun : suggestion_for opt = fun c =>
        if chain_below_threshold opt c then some (mk_suggestion opt c)
        else none := funext (suggestion_for_eq opt)
    rw [suggest_chain_rebalancing, hfun, filterMap_if]
  refine ⟨heq, ?_, ?_, ?_, ?_, ?_⟩
  · intro s hs
    rw [heq] at hs
    obtain ⟨c, hc, rfl⟩ := List.mem_map.mp hs
    obtain ⟨hcp, hcb⟩ := List.mem_filter.mp hc
    exact ⟨rfl, c, rfl, hcp, hcb⟩
  · intro c hex
    obtain ⟨kv0, hkv0, hne0⟩ := hex
    have hmem : kv0 ∈ opt.chain_costs.filter (fun kv => kv.1 ≠ c) :=
      List.mem_filter.mpr ⟨hkv0, by simpa using hne0⟩
    have hflne : opt.chain_costs.filter (fun kv => kv.1 ≠ c) ≠ [] := by
      intro h
      rw [h] at hmem
      cases hmem
    obtain ⟨m, hm, hmemf, hall⟩ :=
      max_by_success_rate_max _ hflne
    refine ⟨m, List.mem_of_mem_filter hmemf, ?_, ?_, ?_⟩
    · have := (List.mem_filter.mp hmemf).2
      simpa using this
    · simp only [find_alternative_chain, hm]
    · intro kv2 hkv2 hne2
      exact hall kv2 (List.mem_filter.mpr ⟨hkv2, by simpa using hne2⟩)
  · intro c hall4
    have hniltl : opt.chain_costs.filter (fun kv => kv.1 ≠ c) = [] := by
      rw [List.filter_eq_nil_iff]
      intro kv hkv
      simp [hall4 kv hkv]
    simp only [find_alternative_chain, hniltl, max_by_success_rate,
      List.foldl_nil]
  · intro c d hl hpos
    simp only [calculate_potential_savings, hl]
    have hmap : opt.chain_costs.map
        (fun kv => qmulF kv.2.success_rate (recipF kv.2.average_cost)) =
      (opt.chain_costs.map
        (fun kv => kv.2.success_rate / kv.2.average_cost)).map F64.fin := by
      rw [List.map_map]
      apply List.map_congr_left
      intro kv hkv
      have h0 : kv.2.average_cost ≠ 0 := ne_of_gt (hpos kv hkv)
      simp only [Function.comp_apply, recipF, if_neg h0, qmulF,
        mul_one_div]
    rw [hmap, foldl_maxF_fin]
    rfl
  · intro hrange c q hq
    cases hl : alookup opt.chain_costs c with
    | none =>
      simp only [calculate_potential_savings, hl, F64.fin.injEq] at hq
      exact le_of_eq hq
    | some d =>
      obtain ⟨h0r, h1r, h0c⟩ := hrange (c, d) (alookup_mem _ _ _ hl)
      simp only [calculate_potential_savings, hl] at hq
      have hineff : 0 ≤ (1 - d.success_rate) * d.average_cost :=
        mul_nonneg (by linarith) h0c
      rcases foldl_maxF_nonneg_or_inf
          (opt.chain_costs.map
            (fun kv => qmulF kv.2.success_rate (recipF kv.2.average_cost)))
          0 (le_refl 0) with ⟨b, hb, hb0⟩ | hinf
      · rw [hb] at hq
        have hq2 : (1 - d.success_rate) * d.average_cost * b = q := by
          simpa [qmulF, F64.fin.injEq] using hq
        rw [← hq2]
        exact mul_nonneg hineff hb0
      · rw [hinf] at hq
        simp only [qmulF] at hq
        split at hq
        · exact absurd hq (by simp)
        · split at hq
          · exact absurd hq (by simp)
          · exact absurd hq (by simp)

/-- Witness for suggest_rebalancing_spec: the concrete Polygon-only state
has stats in range, its finite savings value is 0, and the theorem gives
its nonnegativity. -/
theorem suggest_rebalancing_spec_witness :
    chainStatsInRange optC5 ∧
    calculate_potential_savings optC5 "Polygon" = F64.fin 0 ∧
    (0 : ℚ) ≤ 0 := by
  have hr : chainStatsInRange optC5 := by
    intro kv hkv
    norm_num [optC5, record_usage, update_chain_costs, CostOptimizer.new,
      OptimizationSettings.default, alookup, ainsert] at hkv
    rw [hkv]
    norm_num
  have hfin : calculate_potential_savings optC5 "Polygon" = F64.fin 0 := by
    norm_num [optC5, calculate_potential_savings, record_usage,
      update_chain_costs, CostOptimizer.new, OptimizationSettings.default,
      alookup, ainsert, qmulF, recipF, maxF]
  exact ⟨hr, hfin,
    (suggest_rebalancing_spec optC5).2.2.2.2.2 hr "Polygon" 0 hfin⟩
